import Mathlib

/-!
Shallow embedding of the pygrpc wire codec (`pygrpc/protobuf/codec.py`),
frame and trailer codecs and unary-call protocol (`pygrpc/web/protocol.py`).

Byte streams are embedded as `List Nat` (each entry one byte); a read
consumes a prefix of the list and returns the unconsumed tail. Python
exceptions are embedded as `Except PyErr`. Bit operations on unbounded
Python integers are translated to their exact arithmetic counterparts:
`x & 0x7F` is `x % 0x80`, `x >> 7` is `x / 0x80`, and the continuation
flag test `x & 0x80` is `x / 0x80 % 2 = 1` (the eighth bit of `x`).
-/

/-- Python exceptions raised by the embedded code paths. -/
inductive PyErr where
  | eofError
  | typeError
  | valueError
  | keyError
  | nameError
  | overflowError
  | unknownFrameIdError
  | unknownFieldError
  | frameExpectedError
  | unexpectedFrameError
  | fuelExhausted
deriving DecidableEq, Repr

-- Runtime values carried by message fields: Python `int`, `str`, and
-- nested message `dict`s (`Entries` is the assoc list of a Python dict,
-- in insertion order).
mutual
inductive Value where
  | int (n : Nat)
  | str (s : String)
  | msg (entries : Entries)
deriving Repr

inductive Entries where
  | nil
  | cons (key : String) (value : Value) (rest : Entries)
deriving Repr
end

-- Python `==` on the embedded runtime values.
mutual
def Value.beq : Value → Value → Bool
  | .int a, .int b => a == b
  | .str a, .str b => a == b
  | .msg a, .msg b => Entries.beq a b
  | _, _ => false

def Entries.beq : Entries → Entries → Bool
  | .nil, .nil => true
  | .cons k v r, .cons k2 v2 r2 => k == k2 && Value.beq v v2 && Entries.beq r r2
  | _, _ => false
end

/-- `value[field_name]`: Python dict lookup on a message value. -/
def Entries.get : Entries → String → Option Value
  | .nil, _ => none
  | .cons k v r, key => if k == key then some v else Entries.get r key

/-- `len` of a message dict. -/
def Entries.size : Entries → Nat
  | .nil => 0
  | .cons _ _ r => r.size + 1

/-- `message[field_name] = value`: Python dict upsert (an existing key keeps
its position and takes the new value; a new key is appended). -/
def Entries.insert : Entries → String → Value → Entries
  | .nil, key, v => .cons key v .nil
  | .cons k v0 r, key, v =>
    if k == key then .cons k v r else .cons k v0 (Entries.insert r key v)

-- Schema model of `codec.py`: `PrimitiveType` {INT32, STRING} and
-- `MessageType` form `Type`; `OptionalType` wraps a `Type` with a default
-- value, giving `MessageFieldType`; `MessageFields` is the field-number →
-- (name, field type) dict, in registration order.
mutual
inductive PbType where
  | int32
  | string
  | message (fields : MessageFields)
deriving Repr

inductive MessageFieldType where
  | plain (t : PbType)
  | optional (t : PbType) (default : Value)
deriving Repr

inductive MessageFields where
  | nil
  | cons (number : Nat) (name : String) (type : MessageFieldType) (rest : MessageFields)
deriving Repr
end

/-- `fields[field_number]` lookup. -/
def MessageFields.get : MessageFields → Nat → Option (String × MessageFieldType)
  | .nil, _ => none
  | .cons num name t r, key => if num == key then some (name, t) else MessageFields.get r key

/-- The `WireType` enum: VARINT=0, I64=1, LEN=2, I32=5. -/
inductive WireType where
  | VARINT
  | I64
  | LEN
  | I32
deriving DecidableEq, Repr

/-- Wire type of a base (`Type`) field type: messages and STRING are LEN,
INT32 is VARINT. -/
def get_wire_type_base : PbType → WireType
  | .message _ => .LEN
  | .int32 => .VARINT
  | .string => .LEN

/-- `get_wire_type`: unwraps an `OptionalType` and dispatches on the base
type (the source recurses through `type.type`; the recursion is flattened
here since `OptionalType` only wraps base types). -/
def get_wire_type : MessageFieldType → WireType
  | .optional t _ => get_wire_type_base t
  | .plain t => get_wire_type_base t

/-- The loop of `read_varint`: read one byte, accumulate its low 7 bits at
position `shift`, and continue while the continuation flag (bit 7) is set.
The accumulated groups occupy bits below `shift`, so the source's
`value |= (payload & 0x7F) << shift` is the addition
`value + payload % 0x80 * 2 ^ shift`. An exhausted stream raises EOFError. -/
def read_varint_loop : List Nat → Nat → Nat → Except PyErr (Nat × List Nat)
  | [], _, _ => .error .eofError
  | b :: rest, shift, value =>
    let value := value + b % 0x80 * 2 ^ shift
    if b / 0x80 % 2 = 1 then read_varint_loop rest (shift + 7) value
    else .ok (value, rest)

/-- `read_varint(stream)`. -/
def read_varint (stream : List Nat) : Except PyErr (Nat × List Nat) :=
  read_varint_loop stream 0 0

/-- `write_varint(stream, value)`: emit the value 7 bits at a time, least
significant group first, setting the continuation flag on every byte but
the last. -/
def write_varint (value : Nat) : List Nat :=
  if value < 0x80 then [value]
  else (value % 0x80 + 0x80) :: write_varint (value / 0x80)
termination_by value
decreasing_by exact Nat.div_lt_self (by omega) (by omega)

/-- `read_bytes(stream)`: read a varint size then exactly `size` bytes,
raising EOFError when fewer remain. -/
def read_bytes (stream : List Nat) : Except PyErr (List Nat × List Nat) := do
  let (size, s1) ← read_varint stream
  let value := s1.take size
  if value.length ≠ size then .error .eofError
  else .ok (value, s1.drop size)

theorem write_varint_base {v : Nat} (h : v < 0x80) : write_varint v = [v] := by
  rw [write_varint]
  simp [h]

theorem write_varint_step {v : Nat} (h : ¬ v < 0x80) :
    write_varint v = (v % 0x80 + 0x80) :: write_varint (v / 0x80) := by
  rw [write_varint]
  simp [h]

theorem read_varint_loop_write (v : Nat) :
    ∀ (rest : List Nat) (shift value : Nat),
      read_varint_loop (write_varint v ++ rest) shift value =
        .ok (value + v * 2 ^ shift, rest) := by
  induction v using write_varint.induct with
  | case1 v h =>
    intro rest shift value
    rw [write_varint_base h]
    have h0 : v / 0x80 = 0 := Nat.div_eq_of_lt h
    have h1 : v % 0x80 = v := Nat.mod_eq_of_lt h
    simp [read_varint_loop, h0, h1]
  | case2 v h ih =>
    intro rest shift value
    rw [write_varint_step h]
    have hflag : (v % 0x80 + 0x80) / 0x80 % 2 = 1 := by omega
    have hmod : (v % 0x80 + 0x80) % 0x80 = v % 0x80 := by omega
    simp only [List.cons_append, read_varint_loop, hflag, hmod, if_pos]
    rw [List.append_eq, ih]
    have hsplit : v % 0x80 + 0x80 * (v / 0x80) = v := Nat.mod_add_div v 0x80
    have hpow : (2 : Nat) ^ (shift + 7) = 2 ^ shift * 0x80 := by
      rw [pow_add]; norm_num
    have key : value + v % 0x80 * 2 ^ shift + v / 0x80 * 2 ^ (shift + 7) =
        value + v * 2 ^ shift := by
      calc value + v % 0x80 * 2 ^ shift + v / 0x80 * 2 ^ (shift + 7)
          = value + (v % 0x80 + 0x80 * (v / 0x80)) * 2 ^ shift := by rw [hpow]; ring
        _ = value + v * 2 ^ shift := by rw [hsplit]
    rw [key]

/-- Every varint encoding splits as flagged continuation bytes followed by
one final byte with the flag clear, and all emitted bytes are bytes. -/
theorem write_varint_shape (v : Nat) :
    ∃ bs b, write_varint v = bs ++ [b] ∧
      (∀ x ∈ bs, x / 0x80 % 2 = 1) ∧ b / 0x80 % 2 = 0 ∧
      (∀ x ∈ bs ++ [b], x < 0x100) := by
  induction v using write_varint.induct with
  | case1 v h =>
    refine ⟨[], v, by rw [write_varint_base h]; simp, by simp, by omega, ?_⟩
    simp
    omega
  | case2 v h ih =>
    obtain ⟨bs, b, heq, hflag, hlast, hbyte⟩ := ih
    refine ⟨(v % 0x80 + 0x80) :: bs, b, ?_, ?_, hlast, ?_⟩
    · rw [write_varint_step h, heq]
      simp
    · intro x hx
      rcases List.mem_cons.mp hx with hx | hx
      · omega
      · exact hflag x hx
    · intro x hx
      rcases List.mem_cons.mp hx with hx | hx
      · omega
      · exact hbyte x hx

/-- Claim C2: for every unsigned integer, decoding the varint encoding
reproduces the value (with the unconsumed tail preserved); the encoding is
7-bit groups least-significant first, every byte below 0x100, with the
continuation flag (high bit) set on every byte except the last and clear
on the last. -/
theorem varint_round_trip (v : Nat) (rest : List Nat) :
    read_varint (write_varint v ++ rest) = .ok (v, rest) ∧
    (∃ bs b, write_varint v = bs ++ [b] ∧
      (∀ x ∈ bs, x / 0x80 % 2 = 1) ∧ b / 0x80 % 2 = 0 ∧
      (∀ x ∈ bs ++ [b], x < 0x100)) := by
  constructor
  · unfold read_varint
    rw [read_varint_loop_write]
    simp
  · exact write_varint_shape v

/-- Claim C6: a read that runs out of input fails with the truncation error
EOFError: `read_varint` fails when the stream ends before a byte with the
continuation flag clear, and `read_bytes` fails when fewer bytes remain
than the varint length announced. -/
theorem reads_fail_on_truncation :
    (∀ stream : List Nat, (∀ b ∈ stream, b / 0x80 % 2 = 1) →
      read_varint stream = .error .eofError) ∧
    (∀ (stream rest : List Nat) (size : Nat),
      read_varint stream = .ok (size, rest) → rest.length < size →
      read_bytes stream = .error .eofError) := by
  constructor
  · have loop : ∀ (stream : List Nat) (shift value : Nat),
        (∀ b ∈ stream, b / 0x80 % 2 = 1) →
        read_varint_loop stream shift value = .error .eofError := by
      intro stream
      induction stream with
      | nil => intro shift value _; rfl
      | cons b rest ih =>
        intro shift value hall
        have hb : b / 0x80 % 2 = 1 := hall b (by simp)
        simp only [read_varint_loop, hb, if_pos]
        exact ih _ _ (fun x hx => hall x (by simp [hx]))
    intro stream hall
    exact loop stream 0 0 hall
  · intro stream rest size hvar hlt
    unfold read_bytes
    rw [hvar]
    simp only [Bind.bind, Except.bind]
    rw [if_pos (by rw [List.length_take]; omega)]

/-- Witness for claim C6 at concrete inputs: a stream of two flagged bytes
truncates a varint, and a stream announcing 5 bytes with only 2 remaining
truncates a length-delimited read. -/
theorem reads_fail_on_truncation_witness :
    read_varint [0x80, 0x80] = .error .eofError ∧
    read_bytes [5, 1, 2] = .error .eofError := by
  constructor
  · exact reads_fail_on_truncation.1 [0x80, 0x80] (by decide)
  · exact reads_fail_on_truncation.2 [5, 1, 2] [1, 2] 5 rfl (by decide)

/-- `read_string(stream)`: a length-delimited byte read decoded to text
(byte-to-text decoding is modelled as the code-point mapping; every input
exercised in this development is ASCII). -/
def read_string (stream : List Nat) : Except PyErr (String × List Nat) := do
  let (bs, s1) ← read_bytes stream
  .ok (String.mk (bs.map Char.ofNat), s1)

/-- The `isinstance(field_type, OptionalType)` unwrapping step of
`read_message_field`. -/
def unwrap_optional : MessageFieldType → PbType
  | .optional t _ => t
  | .plain t => t

-- The decode family of `codec.py`, with a fuel parameter for the mutual
-- recursion through nested message fields (every call site supplies more
-- fuel than the loops can consume, one unit per read step).
--
-- `read_message_fieldF` embeds `read_message_field`: read the tag varint,
-- resolve the field number in the schema (`fields[field_number]` raises
-- KeyError when absent), unwrap an OptionalType, then decode per the
-- declared type. Note the source returns the BARE decoded value (the
-- declared `tuple[int, Any]` pair is never built).
--
-- `read_messageF` embeds `read_message`: read `size` bytes (an empty read
-- raises EOFError), then repeatedly call `read_message_field` on that
-- region until it raises EOFError.
--
-- `read_message_loopF` embeds the `while True` loop. The source unpacks
-- `field_number, field_value = read_message_field(...)` inside a
-- `try/except EOFError`; since `read_message_field` returns a bare value,
-- the unpacking raises per the value's runtime type — TypeError for an
-- `int`, and for a 2-element `str` or `dict` the unpacked parts are a
-- character or two keys, so the subsequent `fields[field_number]` lookup
-- (outside the `try`) raises KeyError, while any other length raises
-- ValueError at the unpacking itself.
mutual
def read_message_fieldF : Nat → List Nat → MessageFields → Except PyErr (Value × List Nat)
  | 0, _, _ => .error .fuelExhausted
  | fuel + 1, stream, fields => do
    let (tag, s1) ← read_varint stream
    let field_number := tag / 8
    match fields.get field_number with
    | none => .error .keyError
    | some (_, field_type) =>
      match unwrap_optional field_type with
      | .message mfields => do
        let (size, s2) ← read_varint s1
        let (m, s3) ← read_messageF fuel s2 mfields size
        .ok (.msg m, s3)
      | .int32 => do
        let (n, s2) ← read_varint s1
        .ok (.int n, s2)
      | .string => do
        let (s, s2) ← read_string s1
        .ok (.str s, s2)

def read_messageF : Nat → List Nat → MessageFields → Nat → Except PyErr (Entries × List Nat)
  | fuel, stream, fields, size =>
    let data := stream.take size
    let rest := stream.drop size
    if data.isEmpty then .error .eofError
    else
      match fuel with
      | 0 => .error .fuelExhausted
      | fuel + 1 =>
        match read_message_loopF fuel data fields .nil with
        | .error e => .error e
        | .ok m => .ok (m, rest)

def read_message_loopF : Nat → List Nat → MessageFields → Entries → Except PyErr Entries
  | 0, _, _, _ => .error .fuelExhausted
  | fuel + 1, substream, fields, acc =>
    match read_message_fieldF fuel substream fields with
    | .error .eofError => .ok acc
    | .error e => .error e
    | .ok (value, _s) =>
      match value with
      | .int _ => .error .typeError
      | .str s => if s.length = 2 then .error .keyError else .error .valueError
      | .msg m => if m.size = 2 then .error .keyError else .error .valueError
end

/-- `read_message(stream, message_type, size)` at a fuel bound ample for
the region read. -/
def read_message (stream : List Nat) (fields : MessageFields) (size : Nat) :
    Except PyErr (Entries × List Nat) :=
  read_messageF (stream.length + size + 2) stream fields size

/-- `write_message_field(stream, field_type, field_number, value)`. When the
field is `OptionalType`-wrapped and the value equals the declared default,
nothing is written (implicit-presence elision). Otherwise the source
computes `tag = (field_number << 0x03) | wire_type` where `wire_type` is a
`WireType` enum member, not an integer, so the bitwise-or raises TypeError
(were that repaired, the next line `write(stream, base_type, value)` names
the undefined `base_type`, raising NameError, and `write_string` calls
`write_bytes(value.encode(encoding))` without its stream argument). -/
def write_message_field (field_type : MessageFieldType) (field_number : Nat)
    (value : Value) : Except PyErr (List Nat) :=
  if (match field_type with
      | .optional _ default => Value.beq value default
      | .plain _ => false) then
    .ok []
  else
    let _wire_type := get_wire_type field_type
    let _ := field_number
    .error .typeError

/-- `write_message(stream, message_type, value)`: iterate the schema fields
in registration order, look the field's value up in the message dict
(`value[field_name]` raises KeyError when absent), and write each field. -/
def write_message (fields : MessageFields) (value : Entries) : Except PyErr (List Nat) :=
  match fields with
  | .nil => .ok []
  | .cons field_number field_name field_type rest => do
    match value.get field_name with
    | none => .error .keyError
    | some field_value => do
      let bytes ← write_message_field field_type field_number field_value
      let more ← write_message rest value
      .ok (bytes ++ more)

/-- The schema of claims C1 and C4: `{1: ("a", INT32), 2: ("b", STRING)}`. -/
def c1Fields : MessageFields :=
  .cons 1 "a" (.plain .int32) (.cons 2 "b" (.plain .string) .nil)

/-- The value of claim C1: `{"a": 42, "b": "hi"}`. -/
def c1Value : Entries :=
  .cons "a" (.int 42) (.cons "b" (.str "hi") .nil)

/-- Claim C1: encoding the conforming value `{"a": 42, "b": "hi"}` against
the schema `{1: ("a", INT32), 2: ("b", STRING)}` does not produce bytes at
all — `write_message_field` raises TypeError on its first non-elided field
(the tag computation applies `|` to an `int` and a `WireType` enum member),
so the claimed decode-encode round trip cannot hold on the code. -/
theorem write_message_crashes_on_c1_value :
    write_message c1Fields c1Value = .error .typeError := by rfl

/-- The schema of claim C3: `{1: ("x", OptionalType(INT32, default=0))}`. -/
def c3Fields : MessageFields :=
  .cons 1 "x" (.optional .int32 (.int 0)) .nil

/-- The value of claim C3: `{"x": 0}`, equal to the declared default. -/
def c3Value : Entries := .cons "x" (.int 0) .nil

/-- Claim C3: a field whose value equals its OptionalType default is indeed
omitted entirely on encode (the encoded message is empty), but decoding the
resulting zero-length region raises EOFError instead of yielding the
declared default — `read_message` treats the empty read of the region as
truncation. -/
theorem optional_default_elided_but_empty_decode_fails :
    write_message c3Fields c3Value = .ok [] ∧
    read_message [] c3Fields 0 = .error .eofError := by
  exact ⟨rfl, rfl⟩

/-- Claim C4: `read_message` silently returns a mapping when the region's
final field is truncated — the byte region `[0x80]` (a truncated tag
varint) decodes to the empty mapping with no error, because the loop's
`except EOFError: break` also catches truncation inside a field read.
(A region whose first field is complete, such as
`[0x08, 0x2A, 0x12, 0x05, 0x68]` — field 1 = 42 followed by a string field
announcing 5 bytes with 1 remaining — instead raises TypeError, because
`read_message_field` returns the bare value that `read_message` then
tuple-unpacks; decode never fails with a truncation error there either
way, but the silent success on `[0x80]` is what refutes the claim.) -/
theorem read_message_silently_drops_truncated_field :
    read_message [0x80] c1Fields 1 = .ok (.nil, []) ∧
    read_message [0x08, 0x2A, 0x12, 0x05, 0x68] c1Fields 5 = .error .typeError := by
  exact ⟨rfl, rfl⟩

/-- Claim C10: decoding a message from a zero-length byte region fails with
EOFError instead of returning the empty field mapping: `read_message`
raises as soon as `stream.read(size)` comes back empty, whether the region
size is zero or the stream itself is exhausted. -/
theorem read_message_fails_on_empty_region :
    (∀ (fields : MessageFields) (stream : List Nat),
      read_message stream fields 0 = .error .eofError) ∧
    (∀ (fields : MessageFields) (size : Nat),
      read_message [] fields size = .error .eofError) := by
  constructor
  · intro fields stream
    rw [read_message, read_messageF]
    simp
  · intro fields size
    rw [read_message, read_messageF]
    simp

/-- The `FrameId` enum of `web/protocol.py`: MESSAGE = b"\x00",
TRAILER = b"\x80". -/
inductive FrameId where
  | MESSAGE
  | TRAILER
deriving DecidableEq, Repr

/-- The tag byte of a frame id. -/
def FrameId.byte : FrameId → Nat
  | .MESSAGE => 0x00
  | .TRAILER => 0x80

/-- `FrameId.of(value)`: find the member with the given tag byte, raising
UnknownFrameIdError when none matches. -/
def FrameId.of (b : Nat) : Except PyErr FrameId :=
  if b = 0x00 then .ok .MESSAGE
  else if b = 0x80 then .ok .TRAILER
  else .error .unknownFrameIdError

/-- `len(data).to_bytes(length=4, byteorder="big", signed=False)`: the four
big-endian bytes of a value below 2^32 (Python raises OverflowError above,
which `write_frame` reflects). -/
def nat_to_be4 (n : Nat) : List Nat :=
  [n / 2 ^ 24 % 0x100, n / 2 ^ 16 % 0x100, n / 2 ^ 8 % 0x100, n % 0x100]

/-- `write_frame(stream, id, data)`: one tag byte, the 4-byte big-endian
payload length, then the payload; `int.to_bytes` raises OverflowError when
the length does not fit in 4 bytes. -/
def write_frame (id : FrameId) (data : List Nat) : Except PyErr (List Nat) :=
  if data.length < 2 ^ 32 then .ok (id.byte :: (nat_to_be4 data.length ++ data))
  else .error .overflowError

/-- `read_frame(stream)`: read the tag byte (EOFError on empty input),
resolve the frame id, read 4 length bytes (EOFError when fewer remain),
recompose the big-endian size, then read exactly `size` payload bytes
(EOFError when fewer remain). -/
def read_frame (stream : List Nat) : Except PyErr ((FrameId × List Nat) × List Nat) :=
  match stream with
  | [] => .error .eofError
  | b :: s1 => do
    let frame_id ← FrameId.of b
    match s1 with
    | b0 :: b1 :: b2 :: b3 :: s2 =>
      let size := ((b0 * 0x100 + b1) * 0x100 + b2) * 0x100 + b3
      let payload := s2.take size
      if payload.length ≠ size then .error .eofError
      else .ok ((frame_id, payload), s2.drop size)
    | _ => .error .eofError

/-- Claim C7, amended: for payloads shorter than 2^32 bytes, `write_frame`
emits exactly one id tag byte, 4 bytes of big-endian unsigned length, then
the payload, and `read_frame` on that output returns the same (id, payload)
pair with the trailing bytes untouched. -/
theorem frame_round_trip (id : FrameId) (data rest : List Nat)
    (h : data.length < 2 ^ 32) :
    write_frame id data = .ok (id.byte :: (nat_to_be4 data.length ++ data)) ∧
    (nat_to_be4 data.length).length = 4 ∧
    read_frame ((id.byte :: (nat_to_be4 data.length ++ data)) ++ rest) =
      .ok ((id, data), rest) := by
  refine ⟨by rw [write_frame, if_pos h], rfl, ?_⟩
  have hof : FrameId.of id.byte = .ok id := by cases id <;> rfl
  rw [List.cons_append, read_frame]
  simp only [nat_to_be4, hof, List.cons_append, List.nil_append, List.append_assoc,
    Bind.bind, Except.bind]
  have hsize : ((data.length / 2 ^ 24 % 0x100 * 0x100 + data.length / 2 ^ 16 % 0x100) * 0x100 +
      data.length / 2 ^ 8 % 0x100) * 0x100 + data.length % 0x100 = data.length := by
    omega
  rw [hsize, List.take_left, List.drop_left]
  simp

/-- Witness for claim C7's amended round trip at the concrete instance of
the claim: `read_frame(write_frame(MESSAGE, b"abc"))` yields
`(MESSAGE, b"abc")`. -/
theorem frame_round_trip_witness :
    write_frame .MESSAGE [0x61, 0x62, 0x63] =
      .ok (FrameId.MESSAGE.byte :: (nat_to_be4 3 ++ [0x61, 0x62, 0x63])) ∧
    (nat_to_be4 3).length = 4 ∧
    read_frame ((FrameId.MESSAGE.byte :: (nat_to_be4 3 ++ [0x61, 0x62, 0x63])) ++ []) =
      .ok ((.MESSAGE, [0x61, 0x62, 0x63]), []) :=
  frame_round_trip .MESSAGE [0x61, 0x62, 0x63] [] (by decide)

/-- Counterexample to claim C7 as stated: a payload of 2^32 bytes is not
framed at all — `len(data).to_bytes(length=4, ...)` raises OverflowError,
so no "4 bytes of big-endian length followed by the payload" is emitted
for it. -/
theorem write_frame_overflows_on_huge_payload :
    write_frame .MESSAGE (List.replicate (2 ^ 32) 0) = .error .overflowError := by
  rw [write_frame, List.length_replicate]
  rw [if_neg (by omega)]

/-- ASCII bytes of a Lean string literal, for writing byte-level test
inputs readably. -/
def strBytes (s : String) : List Nat := s.toList.map Char.toNat

/-- `data.decode(encoding)` modelled as the code-point mapping (all inputs
exercised here are ASCII). -/
def bytes_to_chars (data : List Nat) : List Char := data.map Char.ofNat

/-- `text.split("\r\n")`: split a character sequence on the CRLF
separator, scanning left to right. -/
def split_crlf : List Char → List (List Char)
  | [] => [[]]
  | '\r' :: '\n' :: rest => [] :: split_crlf rest
  | c :: rest =>
    match split_crlf rest with
    | [] => [[c]]
    | seg :: segs => (c :: seg) :: segs

/-- `line.split(":", maxsplit=1)`: the text before the first colon and
everything after it, or `none` when the line has no colon. -/
def split_colon : List Char → Option (List Char × List Char)
  | [] => none
  | ':' :: rest => some ([], rest)
  | c :: rest =>
    match split_colon rest with
    | none => none
    | some (k, v) => some (c :: k, v)

/-- Python `str.strip()`: drop whitespace from both ends. -/
def strip_chars (l : List Char) : List Char :=
  ((l.dropWhile Char.isWhitespace).reverse.dropWhile Char.isWhitespace).reverse

/-- Python dict upsert on a string-keyed mapping: an existing key keeps its
position and takes the new value, a new key is appended. -/
def dict_insert : List (String × String) → String → String → List (String × String)
  | [], k, v => [(k, v)]
  | (k0, v0) :: rest, k, v =>
    if k0 == k then (k0, v) :: rest else (k0, v0) :: dict_insert rest k v

/-- Python dict lookup on a string-keyed mapping. -/
def dict_get : List (String × String) → String → Option String
  | [], _ => none
  | (k0, v0) :: rest, k => if k0 == k then some v0 else dict_get rest k

/-- The per-line body of `decode_trailers`: split each line at the first
colon (a line with no colon raises ValueError from the tuple unpacking),
strip key and value, and store with later duplicates overwriting. -/
def decode_trailers_lines : List (List Char) → List (String × String) →
    Except PyErr (List (String × String))
  | [], acc => .ok acc
  | line :: rest, acc =>
    match split_colon line with
    | none => .error .valueError
    | some (k, v) =>
      decode_trailers_lines rest
        (dict_insert acc (String.mk (strip_chars k)) (String.mk (strip_chars v)))

/-- `decode_trailers(data)`: decode, split on CRLF, and process every
segment except the last (`lines[:-1]`). -/
def decode_trailers (data : List Nat) : Except PyErr (List (String × String)) :=
  decode_trailers_lines (split_crlf (bytes_to_chars data)).dropLast []

/-- Stated from the specification wording for decodeTrailers, for
comparison with the source's `lines[:-1]`: split on CRLF and discard the
trailing empty segment produced by the final terminator, then process each
remaining line the same way. -/
def decode_trailers_spec (data : List Nat) : Except PyErr (List (String × String)) :=
  let lines := split_crlf (bytes_to_chars data)
  let lines := if lines.getLast? = some [] then lines.dropLast else lines
  decode_trailers_lines lines []

theorem split_crlf_ne_nil (cs : List Char) : split_crlf cs ≠ [] := by
  induction cs using split_crlf.induct with
  | case1 => simp [split_crlf]
  | case2 rest ih => simp [split_crlf]
  | case3 c rest hne hnil ih => exact absurd hnil ih
  | case4 c rest hne seg segs heq ih =>
    simp only [split_crlf, heq]
    exact List.cons_ne_nil _ _

/-- Appending the final CRLF terminator always contributes exactly one
trailing empty segment to the split. -/
theorem split_crlf_append_crlf (cs : List Char) :
    split_crlf (cs ++ ['\r', '\n']) = split_crlf cs ++ [[]] := by
  induction cs using split_crlf.induct with
  | case1 => rfl
  | case2 rest ih =>
    simp only [List.cons_append, split_crlf, List.append_eq, ih]
  | case3 c rest hne hnil ih => exact absurd hnil (split_crlf_ne_nil rest)
  | case4 c rest hne seg segs heq ih =>
    have hne2 : ∀ r2 : List Char, c = '\r' → rest ++ ['\r', '\n'] = '\n' :: r2 → False := by
      intro r2 hc hr
      cases rest with
      | nil => simp at hr
      | cons x r =>
        simp only [List.cons_append, List.cons.injEq] at hr
        exact hne r hc (by rw [hr.1])
    simp only [List.cons_append, split_crlf, List.append_eq, ih, heq]

/-- Claim C8: on every input ending with the CRLF terminator, the source's
`lines[:-1]` agrees with the claimed reading (split on CRLF and discard
the trailing empty segment the final terminator produces); each remaining
line splits at its first colon with key and value stripped, a line with no
colon fails, and later duplicate keys overwrite earlier ones — with the
claim's concrete instance `{"a": "1", "b": "2"}`. -/
theorem decode_trailers_correct :
    (∀ data : List Nat,
      decode_trailers (data ++ strBytes "\r\n") =
        decode_trailers_spec (data ++ strBytes "\r\n")) ∧
    decode_trailers (strBytes "a: 1\r\nb: 2\r\n") = .ok [("a", "1"), ("b", "2")] ∧
    decode_trailers (strBytes "nocolon\r\n") = .error .valueError ∧
    decode_trailers (strBytes "a: 1\r\na: 2\r\n") = .ok [("a", "2")] := by
  refine ⟨?_, by rfl, by rfl, by rfl⟩
  intro data
  unfold decode_trailers decode_trailers_spec
  have hb : bytes_to_chars (data ++ strBytes "\r\n") =
      bytes_to_chars data ++ ['\r', '\n'] := by
    simp [bytes_to_chars, strBytes]
  rw [hb, split_crlf_append_crlf]
  simp only [List.dropLast_concat, List.getLast?_concat]
  simp

theorem dict_get_insert_self (m : List (String × String)) (k v : String) :
    dict_get (dict_insert m k v) k = some v := by
  induction m with
  | nil => simp [dict_insert, dict_get]
  | cons p rest ih =>
    obtain ⟨k0, v0⟩ := p
    by_cases h : (k0 == k) = true
    · simp [dict_insert, dict_get, h]
    · simp [dict_insert, dict_get, h, ih]

theorem dict_get_insert_ne (m : List (String × String)) (k v k' : String)
    (hne : k' ≠ k) :
    dict_get (dict_insert m k v) k' = dict_get m k' := by
  induction m with
  | nil =>
    have : (k == k') = false := by simp [(Ne.symm hne)]
    simp [dict_insert, dict_get, this]
  | cons p rest ih =>
    obtain ⟨k0, v0⟩ := p
    by_cases h : (k0 == k) = true
    · have hk0 : k0 = k := by simpa using h
      have : (k0 == k') = false := by simp [hk0, Ne.symm hne]
      simp [dict_insert, dict_get, h, this]
    · by_cases h2 : (k0 == k') = true
      · simp [dict_insert, dict_get, h, h2]
      · simp [dict_insert, dict_get, h, h2, ih]

/-- The header merge of `unary_unary_call`:
`{**request_headers, "Accept": ..., "Content-Type": ..., "X-User-Agent": ...}` —
the caller mapping as the base, then the three protocol-mandated entries
upserted over it. -/
def unary_call_headers (request_headers : List (String × String)) :
    List (String × String) :=
  dict_insert (dict_insert (dict_insert request_headers
    "Accept" "application/grpc-web-text")
    "Content-Type" "application/grpc-web-text")
    "X-User-Agent" "grpc-web-javascript/0.1"

/-- Claim C9: for every caller-supplied header mapping, the headers sent
carry the protocol-mandated values for Accept, Content-Type and
X-User-Agent — even when the caller supplied those names — and every other
caller entry is passed through unchanged. -/
theorem unary_call_headers_protocol_precedence (h : List (String × String)) :
    dict_get (unary_call_headers h) "Accept" = some "application/grpc-web-text" ∧
    dict_get (unary_call_headers h) "Content-Type" = some "application/grpc-web-text" ∧
    dict_get (unary_call_headers h) "X-User-Agent" = some "grpc-web-javascript/0.1" ∧
    ∀ k, k ≠ "Accept" → k ≠ "Content-Type" → k ≠ "X-User-Agent" →
      dict_get (unary_call_headers h) k = dict_get h k := by
  refine ⟨?_, ?_, ?_, ?_⟩
  · unfold unary_call_headers
    rw [dict_get_insert_ne _ _ _ _ (by decide), dict_get_insert_ne _ _ _ _ (by decide),
      dict_get_insert_self]
  · unfold unary_call_headers
    rw [dict_get_insert_ne _ _ _ _ (by decide), dict_get_insert_self]
  · unfold unary_call_headers
    rw [dict_get_insert_self]
  · intro k h1 h2 h3
    unfold unary_call_headers
    rw [dict_get_insert_ne _ _ _ _ h3, dict_get_insert_ne _ _ _ _ h2,
      dict_get_insert_ne _ _ _ _ h1]

/-- Witness for claim C9 at a concrete caller mapping that collides on
Accept and adds a custom header. -/
theorem unary_call_headers_witness :
    dict_get (unary_call_headers [("Accept", "text/html"), ("X-Custom", "1")])
      "Accept" = some "application/grpc-web-text" ∧
    dict_get (unary_call_headers [("Accept", "text/html"), ("X-Custom", "1")])
      "X-Custom" = dict_get [("Accept", "text/html"), ("X-Custom", "1")] "X-Custom" := by
  have h := unary_call_headers_protocol_precedence [("Accept", "text/html"), ("X-Custom", "1")]
  exact ⟨h.1, h.2.2.2 "X-Custom" (by decide) (by decide) (by decide)⟩

/-- The `decode_frames` generator at a fuel bound (each frame consumes at
least its 5 header bytes, so the input length bounds the frame count):
repeatedly `read_frame` until the buffer is fully consumed, propagating
any read error. -/
def decode_framesF : Nat → List Nat → Except PyErr (List (FrameId × List Nat))
  | _, [] => .ok []
  | 0, _ => .error .fuelExhausted
  | fuel + 1, data => do
    let ((frame_id, payload), rest) ← read_frame data
    let frames ← decode_framesF fuel rest
    .ok ((frame_id, payload) :: frames)

/-- `list(decode_frames(data))`. -/
def decode_frames (data : List Nat) : Except PyErr (List (FrameId × List Nat)) :=
  decode_framesF (data.length + 1) data

/-- Modelled from the spec: `protobuf.decode_message`, called by
`decode_unary_response`, is not defined in any provided module (like
`pygrpc.common`, its module is outside the given sources). Per the
specification, decodeMessage operates on an exact byte region: repeatedly
read a tag, fail with UnknownFieldError when the field number is absent
from the schema, decode the field per its declared type (recursing through
a length-delimited sub-region for nested message fields), until the region
is exhausted; later occurrences of a field overwrite earlier ones;
truncation mid-field fails. Fueled for the recursion through nested
regions. -/
def decode_messageF : Nat → List Nat → MessageFields → Entries → Except PyErr Entries
  | 0, _, _, _ => .error .fuelExhausted
  | fuel + 1, data, fields, acc =>
    if data.isEmpty then .ok acc
    else do
      let (tag, s1) ← read_varint data
      let field_number := tag / 8
      match fields.get field_number with
      | none => .error .unknownFieldError
      | some (name, field_type) =>
        match unwrap_optional field_type with
        | .int32 => do
          let (n, s2) ← read_varint s1
          decode_messageF fuel s2 fields (acc.insert name (.int n))
        | .string => do
          let (s, s2) ← read_string s1
          decode_messageF fuel s2 fields (acc.insert name (.str s))
        | .message mfields => do
          let (bs, s2) ← read_bytes s1
          let m ← decode_messageF fuel bs mfields .nil
          decode_messageF fuel s2 fields (acc.insert name (.msg m))

/-- Modelled from the spec: `decode_message(data, type)` over the whole
region, at an ample fuel bound. -/
def decode_message (data : List Nat) (fields : MessageFields) : Except PyErr Entries :=
  decode_messageF ((data.length + 2) * (data.length + 2)) data fields .nil

/-- The frame-count classification of `decode_unary_response` (source lines
152-188), factored over the already-listed frames: zero frames fail with
FrameExpectedError; one frame must be MESSAGE (else FrameExpectedError)
and yields empty trailers; two frames must be MESSAGE then TRAILER in that
order (else UnexpectedFrameError); anything longer fails with
UnexpectedFrameError. -/
def decode_unary_response_frames (frames : List (FrameId × List Nat))
    (fields : MessageFields) : Except PyErr (Entries × List (String × String)) :=
  match frames with
  | [] => .error .frameExpectedError
  | [(frame_id, frame_data)] =>
    if frame_id ≠ FrameId.MESSAGE then .error .frameExpectedError
    else do
      let message ← decode_message frame_data fields
      .ok (message, [])
  | [(message_frame_id, message_frame_data), (trailer_frame_id, trailer_frame_data)] =>
    if message_frame_id ≠ FrameId.MESSAGE ∨ trailer_frame_id ≠ FrameId.TRAILER then
      .error .unexpectedFrameError
    else do
      let message ← decode_message message_frame_data fields
      let trailers ← decode_trailers trailer_frame_data
      .ok (message, trailers)
  | _ => .error .unexpectedFrameError

/-- `decode_unary_response(data, type, model)`. The base64 transport
decoding that precedes the frame scan and the model validation applied to
the decoded mapping belong to collaborators outside the embedded core; the
embedding takes the base64-decoded body and returns the decoded mapping
itself. -/
def decode_unary_response (data : List Nat) (fields : MessageFields) :
    Except PyErr (Entries × List (String × String)) := do
  let frames ← decode_frames data
  decode_unary_response_frames frames fields

/-- Claim C5: `decode_unary_response` classifies by frame count — zero
frames fail with FrameExpectedError; a single frame must be MESSAGE
(otherwise FrameExpectedError) and yields an empty trailer mapping; two
frames must be MESSAGE then TRAILER in that order (otherwise
UnexpectedFrameError); three or more frames fail with
UnexpectedFrameError. -/
theorem decode_unary_response_classification
    (data : List Nat) (fields : MessageFields)
    (frames : List (FrameId × List Nat))
    (hf : decode_frames data = .ok frames) :
    (frames = [] →
      decode_unary_response data fields = .error .frameExpectedError) ∧
    (∀ fid fdata, frames = [(fid, fdata)] → fid ≠ .MESSAGE →
      decode_unary_response data fields = .error .frameExpectedError) ∧
    (∀ fdata m, frames = [(.MESSAGE, fdata)] → decode_message fdata fields = .ok m →
      decode_unary_response data fields = .ok (m, [])) ∧
    (∀ f1 d1 f2 d2, frames = [(f1, d1), (f2, d2)] →
      ¬(f1 = .MESSAGE ∧ f2 = .TRAILER) →
      decode_unary_response data fields = .error .unexpectedFrameError) ∧
    (∀ d1 d2 m t, frames = [(.MESSAGE, d1), (.TRAILER, d2)] →
      decode_message d1 fields = .ok m → decode_trailers d2 = .ok t →
      decode_unary_response data fields = .ok (m, t)) ∧
    (3 ≤ frames.length →
      decode_unary_response data fields = .error .unexpectedFrameError) := by
  have hd : decode_unary_response data fields =
      decode_unary_response_frames frames fields := by
    unfold decode_unary_response
    rw [hf]
    rfl
  refine ⟨?_, ?_, ?_, ?_, ?_, ?_⟩
  · intro h0
    rw [hd, h0]
    rfl
  · intro fid fdata h1 hne
    rw [hd, h1]
    simp [decode_unary_response_frames, hne]
  · intro fdata m h1 hm
    rw [hd, h1]
    simp [decode_unary_response_frames, hm, Bind.bind, Except.bind]
  · intro f1 d1 f2 d2 h1 hcond
    rw [hd, h1]
    have hor : f1 ≠ FrameId.MESSAGE ∨ f2 ≠ FrameId.TRAILER := by tauto
    simp only [decode_unary_response_frames]
    rw [if_pos hor]
  · intro d1 d2 m t h1 hm ht
    rw [hd, h1]
    simp [decode_unary_response_frames, hm, ht, Bind.bind, Except.bind]
  · intro h3
    rw [hd]
    rcases frames with _ | ⟨⟨fa, da⟩, _ | ⟨⟨fb, db⟩, _ | ⟨⟨fc, dc⟩, rest⟩⟩⟩
    · simp at h3
    · simp at h3
    · simp at h3
    · rfl

/-- Witness for claim C5 at a concrete body: a MESSAGE frame carrying
field 1 = 42 followed by a TRAILER frame carrying "a: 1\r\n" decodes to
the message mapping and trailer mapping. -/
theorem decode_unary_response_classification_witness :
    decode_unary_response
      ([0x00, 0, 0, 0, 2, 0x08, 0x2A, 0x80, 0, 0, 0, 6] ++ strBytes "a: 1\r\n")
      c1Fields = .ok (.cons "a" (.int 42) .nil, [("a", "1")]) :=
  (decode_unary_response_classification
      ([0x00, 0, 0, 0, 2, 0x08, 0x2A, 0x80, 0, 0, 0, 6] ++ strBytes "a: 1\r\n")
      c1Fields
      [(.MESSAGE, [0x08, 0x2A]), (.TRAILER, strBytes "a: 1\r\n")]
      (by rfl)).2.2.2.2.1
    [0x08, 0x2A] (strBytes "a: 1\r\n") (.cons "a" (.int 42) .nil) [("a", "1")]
    rfl (by rfl) (by rfl)
